import Mathlib

/-!
Shallow embedding of the ai-wellness-planner backend (Python/Django) in Lean 4,
together with proofs settling the frozen claims about it.

The embedding covers:
* `backend/core/ai_client.py` — `AIClient._parse_json_response`,
  `generate_meal_plan`, `generate_workout_plan`, the fallback plans, and the
  validation helpers;
* `backend/apps/chat/services.py` — `ChatContextService._extract_preferences_from_message`,
  `ChatContextService.get_relevant_context`, `ChatService.generate_ai_response`,
  `ChatAnalyticsService.generate_user_insights`;
* `backend/core/nutrition_api.py` — `NutritionAPI._calculate_health_score`;
* `backend/apps/nutrition/services.py` — `MealPlanningService.generate_grocery_list`.

Python strings are modelled as Lean `String`/`List Char`; Python floats as `Rat`
(the code only adds, compares against thresholds and divides by powers of ten,
none of which the claims distinguish from exact rational arithmetic); Python
exceptions as `Except` with an explicit error type; Python dicts carrying JSON
data as ordered association lists (Python dicts preserve insertion order).
-/

namespace Wellness

/-- Errors a Python run of the modelled code can raise. `jsonDecodeError`
is Python's `json.JSONDecodeError` (a subclass of `ValueError`). -/
inductive PyErr where
  | jsonDecodeError
  | valueError
  | typeError
  | attributeError
  | nameError
  | apiError
deriving DecidableEq, Repr

/-! ## Generic string helpers (Python `str` semantics, ASCII model) -/

/-- Python `str.lower()` restricted to ASCII letters. -/
def pyLowerChar (c : Char) : Char :=
  if 'A' ≤ c ∧ c ≤ 'Z' then Char.ofNat (c.toNat + 32) else c

/-- Python `str.lower()` on a whole string. -/
def pyLower (s : String) : String :=
  String.mk (s.toList.map pyLowerChar)

/-- Python whitespace for `str.split()` and the regex class `\s`
(space, tab, newline, carriage return, vertical tab, form feed). -/
def pyIsSpace (c : Char) : Bool :=
  c = ' ' || c = '\t' || c = '\n' || c = '\r' || c = '\x0b' || c = '\x0c'

/-- Does `pre` occur at the head of `l`? (Python `str.startswith`.) -/
def startsWithL : List Char → List Char → Bool
  | [], _ => true
  | _ :: _, [] => false
  | p :: ps, c :: cs => p = c && startsWithL ps cs

/-- Does `needle` occur as a contiguous substring of `hay`?
(Python `needle in hay` for strings.) -/
def isSub (needle : List Char) : List Char → Bool
  | [] => startsWithL needle []
  | l@(_ :: rest) => startsWithL needle l || isSub needle rest

/-- Python `str.split()` with no argument: split on runs of whitespace,
discarding empty pieces. `cur` is the (reversed) word being accumulated. -/
def pySplitAux : List Char → List Char → List String
  | cur, [] => if cur.isEmpty then [] else [String.mk cur.reverse]
  | cur, c :: rest =>
    if pyIsSpace c then
      if cur.isEmpty then pySplitAux [] rest
      else String.mk cur.reverse :: pySplitAux [] rest
    else pySplitAux (c :: cur) rest

/-- Python `str.split()` (whitespace-run splitting). -/
def pySplit (s : String) : List String :=
  pySplitAux [] s.toList

/-- Strip Python `\s` whitespace from both ends of a character list. -/
def pyTrim (l : List Char) : List Char :=
  ((l.dropWhile pyIsSpace).reverse.dropWhile pyIsSpace).reverse

/-- Index of the first character satisfying `p`, if any. -/
def firstIdx (p : Char → Bool) : List Char → Option Nat
  | [] => none
  | c :: rest => if p c then some 0 else (firstIdx p rest).map (· + 1)

/-- Index of the last character satisfying `p`, if any. -/
def lastIdx (p : Char → Bool) : List Char → Option Nat
  | [] => none
  | c :: rest =>
    match lastIdx p rest with
    | some j => some (j + 1)
    | none => if p c then some 0 else none

/-! ## JSON values and a model of Python's `json.loads`

`json.loads` is the Python standard library parser used by
`AIClient._parse_json_response` (ai_client.py:309/315/320). Numbers are kept
as their source lexemes: no claim depends on numeric values of parsed JSON.
The parser is fuelled; the fuel `s.length + 1` is enough for every input the
claims evaluate (each recursion step consumes at least one character). -/

inductive Json where
  | null
  | bool (b : Bool)
  | num (lexeme : String)
  | str (s : String)
  | arr (elems : List Json)
  | obj (fields : List (String × Json))
deriving Repr

mutual

/-- Structural equality of JSON values (models Python `==` on parsed JSON;
object comparison is modelled order-sensitively, which no claim exercises). -/
def Json.beq : Json → Json → Bool
  | .null, .null => true
  | .bool a, .bool b => a = b
  | .num a, .num b => a = b
  | .str a, .str b => a = b
  | .arr xs, .arr ys => Json.beqList xs ys
  | .obj xs, .obj ys => Json.beqFields xs ys
  | _, _ => false

def Json.beqList : List Json → List Json → Bool
  | [], [] => true
  | x :: xs, y :: ys => Json.beq x y && Json.beqList xs ys
  | _, _ => false

def Json.beqFields : List (String × Json) → List (String × Json) → Bool
  | [], [] => true
  | (k, v) :: xs, (k', v') :: ys => k = k' && Json.beq v v' && Json.beqFields xs ys
  | _, _ => false

end

instance : BEq Json := ⟨Json.beq⟩

/-- JSON whitespace accepted between tokens by `json.loads`. -/
def jsonWs (c : Char) : Bool :=
  c = ' ' || c = '\t' || c = '\n' || c = '\r'

def skipWs (l : List Char) : List Char :=
  l.dropWhile jsonWs

def isHexDigit (c : Char) : Bool :=
  c.isDigit || ('a' ≤ c && c ≤ 'f') || ('A' ≤ c && c ≤ 'F')

def hexVal (c : Char) : Nat :=
  if c.isDigit then c.toNat - '0'.toNat
  else if 'a' ≤ c && c ≤ 'f' then c.toNat - 'a'.toNat + 10
  else c.toNat - 'A'.toNat + 10

/-- Parse the rest of a JSON string literal (after the opening quote),
returning the decoded string and the remaining input. Control characters
must be escaped (`json.loads` is strict by default). -/
def parseStrRest : List Char → List Char → Option (String × List Char)
  | acc, '"' :: rest => some (String.mk acc.reverse, rest)
  | acc, '\\' :: 'u' :: h1 :: h2 :: h3 :: h4 :: rest =>
    if isHexDigit h1 && isHexDigit h2 && isHexDigit h3 && isHexDigit h4 then
      let n := ((hexVal h1 * 16 + hexVal h2) * 16 + hexVal h3) * 16 + hexVal h4
      parseStrRest (Char.ofNat n :: acc) rest
    else none
  | acc, '\\' :: e :: rest =>
    match e with
    | '"' => parseStrRest ('"' :: acc) rest
    | '\\' => parseStrRest ('\\' :: acc) rest
    | '/' => parseStrRest ('/' :: acc) rest
    | 'b' => parseStrRest ('\x08' :: acc) rest
    | 'f' => parseStrRest ('\x0c' :: acc) rest
    | 'n' => parseStrRest ('\n' :: acc) rest
    | 'r' => parseStrRest ('\r' :: acc) rest
    | 't' => parseStrRest ('\t' :: acc) rest
    | _ => none
  | acc, c :: rest =>
    if c.toNat < 32 then none else parseStrRest (c :: acc) rest
  | _, [] => none

/-- Parse a JSON number lexeme (grammar `-?(0|[1-9]\d*)(\.\d+)?([eE][+-]?\d+)?`). -/
def parseNumber (l : List Char) : Option (String × List Char) :=
  let (sign, l1) : List Char × List Char :=
    match l with
    | '-' :: r => (['-'], r)
    | _ => ([], l)
  let intPart : Option (List Char × List Char) :=
    match l1 with
    | '0' :: r => some (['0'], r)
    | c :: _ =>
      if c.isDigit && c ≠ '0' then
        some (l1.takeWhile Char.isDigit, l1.dropWhile Char.isDigit)
      else none
    | [] => none
  match intPart with
  | none => none
  | some (ip, l2) =>
    let (fp, l3) : List Char × List Char :=
      match l2 with
      | '.' :: r =>
        if (r.takeWhile Char.isDigit).isEmpty then ([], l2)
        else ('.' :: r.takeWhile Char.isDigit, r.dropWhile Char.isDigit)
      | _ => ([], l2)
    -- a fraction dot with no digits makes the whole literal invalid in Python,
    -- but only after the integer part has been consumed as a valid number;
    -- `json.loads("1.")` fails at top level because of the trailing ".".
    let (ep, l4) : List Char × List Char :=
      match l3 with
      | e :: r =>
        if e = 'e' || e = 'E' then
          let (sgn, r1) : List Char × List Char :=
            match r with
            | s :: r' => if s = '+' || s = '-' then ([s], r') else ([], r)
            | [] => ([], r)
          if (r1.takeWhile Char.isDigit).isEmpty then ([], l3)
          else (e :: (sgn ++ r1.takeWhile Char.isDigit), r1.dropWhile Char.isDigit)
        else ([], l3)
      | [] => ([], l3)
    some (String.mk (sign ++ ip ++ fp ++ ep), l4)

mutual

/-- Parse one JSON value (fuelled). -/
def parseValue : Nat → List Char → Option (Json × List Char)
  | 0, _ => none
  | fuel + 1, l =>
    match skipWs l with
    | 'n' :: 'u' :: 'l' :: 'l' :: rest => some (.null, rest)
    | 't' :: 'r' :: 'u' :: 'e' :: rest => some (.bool true, rest)
    | 'f' :: 'a' :: 'l' :: 's' :: 'e' :: rest => some (.bool false, rest)
    | 'N' :: 'a' :: 'N' :: rest => some (.num "NaN", rest)
    | 'I' :: 'n' :: 'f' :: 'i' :: 'n' :: 'i' :: 't' :: 'y' :: rest =>
      some (.num "Infinity", rest)
    | '-' :: 'I' :: 'n' :: 'f' :: 'i' :: 'n' :: 'i' :: 't' :: 'y' :: rest =>
      some (.num "-Infinity", rest)
    | '"' :: rest => (parseStrRest [] rest).map (fun (s, r) => (.str s, r))
    | '\x7b' :: rest => parseObjBody fuel rest
    | '[' :: rest => parseArrBody fuel rest
    | l' => (parseNumber l').map (fun (s, r) => (.num s, r))

/-- Parse an object body after the opening brace. -/
def parseObjBody : Nat → List Char → Option (Json × List Char)
  | 0, _ => none
  | fuel + 1, l =>
    match skipWs l with
    | '\x7d' :: rest => some (.obj [], rest)
    | '"' :: rest =>
      match parseStrRest [] rest with
      | none => none
      | some (k, r1) =>
        match skipWs r1 with
        | ':' :: r2 =>
          match parseValue fuel r2 with
          | none => none
          | some (v, r3) => parseObjFields fuel [(k, v)] r3
        | _ => none
    | _ => none

/-- Parse the continuation of an object after one field. -/
def parseObjFields : Nat → List (String × Json) → List Char → Option (Json × List Char)
  | 0, _, _ => none
  | fuel + 1, acc, l =>
    match skipWs l with
    | '\x7d' :: rest => some (.obj acc.reverse, rest)
    | ',' :: r0 =>
      match skipWs r0 with
      | '"' :: rest =>
        match parseStrRest [] rest with
        | none => none
        | some (k, r1) =>
          match skipWs r1 with
          | ':' :: r2 =>
            match parseValue fuel r2 with
            | none => none
            | some (v, r3) => parseObjFields fuel ((k, v) :: acc) r3
          | _ => none
      | _ => none
    | _ => none

/-- Parse an array body after the opening bracket. -/
def parseArrBody : Nat → List Char → Option (Json × List Char)
  | 0, _ => none
  | fuel + 1, l =>
    match skipWs l with
    | ']' :: rest => some (.arr [], rest)
    | _ =>
      match parseValue fuel l with
      | none => none
      | some (v, r1) => parseArrElems fuel [v] r1

/-- Parse the continuation of an array after one element. -/
def parseArrElems : Nat → List Json → List Char → Option (Json × List Char)
  | 0, _, _ => none
  | fuel + 1, acc, l =>
    match skipWs l with
    | ']' :: rest => some (.arr acc.reverse, rest)
    | ',' :: r0 =>
      match parseValue fuel r0 with
      | none => none
      | some (v, r1) => parseArrElems fuel (v :: acc) r1
    | _ => none

end

/-- Modelled from the Python standard library `json.loads` (the parser used at
ai_client.py lines 309, 315 and 320): parse a complete JSON document, allowing
surrounding whitespace, and fail on anything else. -/
def json_loads (s : String) : Option Json :=
  match parseValue (s.length + 1) s.toList with
  | some (j, rest) => if (skipWs rest).isEmpty then some j else none
  | none => none

/-! ## `backend/core/ai_client.py` — `AIClient._parse_json_response`

The two regex fallbacks of `_parse_json_response` (ai_client.py:305-322) are
embedded as concrete functions on character lists:

* `re.search(r'```json\s*(.*?)\s*```', response, re.DOTALL)` matches at the
  first occurrence of the literal ```` ```json ````; the lazy group then ends at
  the first subsequent ```` ``` ````, with the two greedy `\s*` stripping the
  surrounding whitespace from the group — that is `fence_extract`;
* `re.search(r'\{.*\}', response, re.DOTALL)` scans for the leftmost position
  where a match can start (a `{`) and the greedy `.*` then extends to the last
  `}` of the input — that is `reSearchBrace`. -/

/-- Suffix of `l` following the first occurrence of ```` ```json ````, if any. -/
def findFenceStart : List Char → Option (List Char)
  | [] => none
  | l@(_ :: rest) =>
    if startsWithL ("```json".toList) l then some (l.drop 7)
    else findFenceStart rest

/-- Content of `l` strictly before the first occurrence of ```` ``` ````, if any. -/
def beforeTicks : List Char → Option (List Char)
  | [] => none
  | l@(c :: rest) =>
    if startsWithL ("```".toList) l then some []
    else (beforeTicks rest).map (c :: ·)

/-- Group 1 of `re.search(r'```json\s*(.*?)\s*```', response, re.DOTALL)`:
the text between the first ```` ```json ```` and the next ```` ``` ````,
trimmed of `\s` whitespace on both sides. -/
def fence_extract (l : List Char) : Option (List Char) :=
  (findFenceStart l).bind (fun suffix => (beforeTicks suffix).map pyTrim)

/-- Longest prefix of `l` that ends in a `\x7d` character, i.e. `l` cut after
its last closing brace (the greedy `.*\}` tail of the brace regex). -/
def upToLastClose : List Char → Option (List Char)
  | [] => none
  | c :: rest =>
    match upToLastClose rest with
    | some t => some (c :: t)
    | none => if c = '\x7d' then some [c] else none

/-- One attempt of the regex `\{.*\}` anchored at the head of `l`. -/
def tryBraceAt : List Char → Option (List Char)
  | [] => none
  | c :: rest =>
    if c = '\x7b' then (upToLastClose rest).map (c :: ·) else none

/-- `re.search(r'\{.*\}', l, re.DOTALL)`: try a match at each position from the
left; the first position that succeeds yields the (greedy) match. -/
def reSearchBrace : List Char → Option (List Char)
  | [] => none
  | l@(_ :: rest) =>
    match tryBraceAt l with
    | some m => some m
    | none => reSearchBrace rest

/-- The substring from the first `\x7b` to the last `\x7d` of `l`, when the
first opening brace strictly precedes the last closing brace — the wording the
claim uses for the brace regex. -/
def firstToLastBrace (l : List Char) : Option (List Char) :=
  match firstIdx (fun c => c = '\x7b') l, lastIdx (fun c => c = '\x7d') l with
  | some i, some j => if i < j then some ((l.drop i).take (j - i + 1)) else none
  | _, _ => none

/-- Run `json_loads`, raising `JSONDecodeError` on failure (a bare
`json.loads(...)` call outside any `try`). -/
def loadsE (s : String) : Except PyErr Json :=
  match json_loads s with
  | some j => .ok j
  | none => .error .jsonDecodeError

/-- `AIClient._parse_json_response` (ai_client.py:305-322): try `json.loads`
on the whole response; on `JSONDecodeError` fall back to the ```` ```json ````
fence regex, then to the `\{.*\}` regex (each parsed bare, so a failing parse
there raises `JSONDecodeError`), and finally raise
`ValueError("No valid JSON found in response")`. -/
def parse_json_response (response : String) : Except PyErr Json :=
  match json_loads response with
  | some j => .ok j
  | none =>
    match fence_extract response.toList with
    | some inner => loadsE (String.mk inner)
    | none =>
      match reSearchBrace response.toList with
      | some sub => loadsE (String.mk sub)
      | none => .error .valueError

/-- `_parse_json_response` as the claim words it: parse the whole string if it
is valid JSON; else the contents of the first ```` ```json ```` fenced block if
present; else the substring from the first `\x7b` to the last `\x7d` if present;
else raise `ValueError`. -/
def parse_json_response_claim (response : String) : Except PyErr Json :=
  match json_loads response with
  | some j => .ok j
  | none =>
    match fence_extract response.toList with
    | some inner => loadsE (String.mk inner)
    | none =>
      match firstToLastBrace response.toList with
      | some sub => loadsE (String.mk sub)
      | none => .error .valueError

/-! ## `AIClient.generate_meal_plan` / `generate_workout_plan` -/

/-- Python's `key in value` for a parsed JSON value: key membership for dicts,
substring test for strings, element equality for lists, `TypeError` otherwise
(`in` on `int`/`float`/`bool`/`None` is not iterable). -/
def pyContains (v : Json) (key : String) : Except PyErr Bool :=
  match v with
  | .obj kvs => .ok (kvs.any (fun kv => kv.1 == key))
  | .str s => .ok (isSub key.toList s.toList)
  | .arr xs => .ok (xs.any (fun x => x == Json.str key))
  | _ => .error .typeError

/-- `AIClient._validate_meal_plan` (ai_client.py:324-327):
`all(key in meal_plan for key in ['daily_calories', 'days'])`,
short-circuiting after the first `False`. -/
def validate_meal_plan (meal_plan : Json) : Except PyErr Bool := do
  let b1 ← pyContains meal_plan "daily_calories"
  if b1 then pyContains meal_plan "days" else pure false

/-- `AIClient._validate_workout_plan` (ai_client.py:329-332):
`all(key in workout_plan for key in ['plan_name', 'days'])`. -/
def validate_workout_plan (workout_plan : Json) : Except PyErr Bool := do
  let b1 ← pyContains workout_plan "plan_name"
  if b1 then pyContains workout_plan "days" else pure false

/-- `AIClient._get_fallback_meal_plan` (ai_client.py:334-365); the
`user_profile` argument is accepted and ignored, as in the source. -/
def fallback_meal_plan (_user_profile : Json) : Json :=
  .obj [
    ("daily_calories", .num "1800"),
    ("days", .arr [
      .obj [
        ("day", .str "Monday"),
        ("meals", .obj [
          ("breakfast", .obj [
            ("name", .str "Oatmeal with berries"),
            ("calories", .num "350"),
            ("ingredients", .arr [.str "1 cup oatmeal", .str "1/2 cup mixed berries", .str "1 tbsp honey"])]),
          ("lunch", .obj [
            ("name", .str "Grilled chicken salad"),
            ("calories", .num "450"),
            ("ingredients", .arr [.str "4oz grilled chicken", .str "2 cups mixed greens", .str "1 tbsp olive oil"])]),
          ("dinner", .obj [
            ("name", .str "Baked salmon with vegetables"),
            ("calories", .num "500"),
            ("ingredients", .arr [.str "5oz salmon fillet", .str "1 cup broccoli", .str "1/2 cup brown rice"])]),
          ("snack", .obj [
            ("name", .str "Greek yogurt with almonds"),
            ("calories", .num "200"),
            ("ingredients", .arr [.str "1 cup Greek yogurt", .str "1oz almonds"])])])]])]

/-- `AIClient._get_fallback_workout_plan` (ai_client.py:367-382). Note the
second exercise (`Plank`) has a `duration` field and no `reps` field. -/
def fallback_workout_plan (_user_profile : Json) : Json :=
  .obj [
    ("plan_name", .str "Basic Fitness Plan"),
    ("days", .arr [
      .obj [
        ("day", .str "Monday"),
        ("type", .str "Upper Body"),
        ("duration", .str "30 minutes"),
        ("exercises", .arr [
          .obj [("name", .str "Push-ups"), ("sets", .num "3"), ("reps", .num "10")],
          .obj [("name", .str "Plank"), ("sets", .num "3"), ("duration", .str "30 seconds")]])]])]

/-- `AIClient.generate_meal_plan` (ai_client.py:24-49). The outcome of the AI
call (`_call_ai_api`, including any failure while building the prompt or
talking to the provider) is the `api` argument; every exception inside the
`try` block falls back to `_get_fallback_meal_plan`. -/
def generate_meal_plan (user_profile : Json) (api : Except PyErr String) : Json :=
  match (do
      let response ← api
      let meal_plan ← parse_json_response response
      let ok ← validate_meal_plan meal_plan
      pure (meal_plan, ok) : Except PyErr (Json × Bool)) with
  | .ok (meal_plan, true) => meal_plan
  | .ok (_, false) => fallback_meal_plan user_profile
  | .error _ => fallback_meal_plan user_profile

/-- `AIClient.generate_workout_plan` (ai_client.py:51-76), analogous to
`generate_meal_plan` with `_validate_workout_plan` and the workout fallback. -/
def generate_workout_plan (user_profile : Json) (api : Except PyErr String) : Json :=
  match (do
      let response ← api
      let workout_plan ← parse_json_response response
      let ok ← validate_workout_plan workout_plan
      pure (workout_plan, ok) : Except PyErr (Json × Bool)) with
  | .ok (workout_plan, true) => workout_plan
  | .ok (_, false) => fallback_workout_plan user_profile
  | .error _ => fallback_workout_plan user_profile

/-- Is `j` a Python dict containing key `k`? -/
def jHasKey (j : Json) (k : String) : Bool :=
  match j with
  | .obj kvs => kvs.any (fun kv => kv.1 == k)
  | _ => false

/-- Is `j` a Python dict at all? -/
def jIsDict (j : Json) : Bool :=
  match j with
  | .obj _ => true
  | _ => false

/-- Is `j` a dict containing both `'daily_calories'` and `'days'`? -/
def isMealDict (j : Json) : Bool :=
  jIsDict j && jHasKey j "daily_calories" && jHasKey j "days"

/-- The value of field `k` of a JSON dict, if any. -/
def jGet (j : Json) (k : String) : Option Json :=
  match j with
  | .obj kvs => (kvs.find? (fun kv => kv.1 == k)).map (fun kv => kv.2)
  | _ => none

/-- The elements of field `k` when it is a list, else no elements. -/
def jGetList (j : Json) (k : String) : List Json :=
  match jGet j k with
  | some (.arr xs) => xs
  | _ => []

/-- The exercise entries of a plan: for each entry of the plan's `days` list,
the elements of its `exercises` list (an absent or non-list field contributes
no exercises). -/
def exercisesOf (plan : Json) : List Json :=
  (jGetList plan "days").flatMap (fun day => jGetList day "exercises")

/-- Does every exercise entry of `plan` contain the field `k`? -/
def allExercisesHave (k : String) (plan : Json) : Bool :=
  (exercisesOf plan).all (fun e => jHasKey e k)

/-! ## `backend/apps/chat/services.py` — `ChatContextService._extract_preferences_from_message`

The food-preference part of `_extract_preferences_from_message`
(services.py:526-584): on the lowercased message content, guarded by substring
tests, scan the whitespace-split words and collect the word after each trigger
token. -/

/-- The loop `for i, word in enumerate(words): if word in keys and i + 1 <
len(words): out.append(words[i + 1])`, translated with the source's explicit
indexing. `words[i]!`/`words[i+1]!` are within bounds exactly as in Python
because of the `i + 1 < len(words)` test. -/
def collectFollowing (keys : List String) (words : List String) : List String :=
  (List.range words.length).filterMap (fun i =>
    if (keys.contains (words.getD i "")) ∧ i + 1 < words.length then
      some (words.getD (i + 1) "")
    else none)

/-- The food-likes and food-dislikes lists extracted by
`_extract_preferences_from_message` (services.py:545-560): the likes scan is
guarded by `'love' in content or 'like' in content`, the dislikes scan by
`'hate' in content or 'dislike' in content`; both scans re-split the content. -/
def extract_food_preferences (content : String) : List String × List String :=
  let c := pyLower content
  let cl := c.toList
  let food_likes :=
    if isSub "love".toList cl || isSub "like".toList cl then
      collectFollowing ["love", "like", "enjoy"] (pySplit c)
    else []
  let food_dislikes :=
    if isSub "hate".toList cl || isSub "dislike".toList cl then
      collectFollowing ["hate", "dislike", "avoid"] (pySplit c)
    else []
  (food_likes, food_dislikes)

/-- The words that immediately follow a trigger token, in the wording of the
claim: pair every word with its successor and keep the successors of trigger
words. -/
def followersOf (keys : List String) (words : List String) : List String :=
  ((words.zip words.tail).filter (fun p => keys.contains p.1)).map (fun p => p.2)

/-- The claim's description of the extraction: liked foods are exactly the
words immediately following a token `love`/`like`/`enjoy`, scanned iff the
lowercased content contains `love` or `like` as a substring; dislikes
symmetrically with tokens `hate`/`dislike`/`avoid` under the
`hate`/`dislike` substring guard. -/
def extract_food_preferences_claim (content : String) : List String × List String :=
  let c := pyLower content
  let cl := c.toList
  ((if isSub "love".toList cl || isSub "like".toList cl then
      followersOf ["love", "like", "enjoy"] (pySplit c)
    else []),
   (if isSub "hate".toList cl || isSub "dislike".toList cl then
      followersOf ["hate", "dislike", "avoid"] (pySplit c)
    else []))

/-! ## `ChatContextService.get_relevant_context` and the `ChatContext` model -/

/-- A `ChatContext` row (chat/models.py:195-253): the fields
`get_relevant_context` reads. Time instants are modelled as rationals. -/
structure ContextItem where
  context_type : String
  key : String
  value : Json
  importance_score : Rat
  expires_at : Option Rat
deriving Repr

/-- `ChatContext.is_expired` (chat/models.py:247-253): an item with no
`expires_at` is never expired; otherwise expired iff `now > expires_at`. -/
def ContextItem.is_expired (it : ContextItem) (now : Rat) : Bool :=
  match it.expires_at with
  | none => false
  | some t => now > t

/-- `ChatContextService.get_relevant_context` (services.py:605-624), item
selection: `session.context_items.filter(importance_score__gte=0.7)
.exclude(expires_at__lt=timezone.now())`. A SQL `NULL` `expires_at` never
satisfies `expires_at < now`, so such rows survive the `exclude`. -/
def get_relevant_context (now : Rat) (items : List ContextItem) : List ContextItem :=
  (items.filter (fun it => (7 : Rat)/10 ≤ it.importance_score)).filter
    (fun it =>
      match it.expires_at with
      | some t => !(t < now)
      | none => true)

/-! ## `ChatService.generate_ai_response` (services.py:118-189)

`AIClient.chat_response` (ai_client.py:78-98) contains `yield` statements, so
it is a generator function: calling it returns a generator object immediately,
without executing its body. `generate_ai_response` then calls
`.get('content', '')` on that object, which raises `AttributeError`, landing in
the `except` branch. Python values relevant to that flow are modelled by
`PyVal`; attribute/`.get` access is modelled by `pyDictGet`. -/

inductive PyVal where
  | generator
  | dict (kvs : List (String × PyVal))
  | str (s : String)
  | int (n : Int)
  | none
deriving Repr

/-- Python `value.get(key, default)`: only dicts have a `.get` method; on any
other value the attribute lookup itself raises `AttributeError`. -/
def pyDictGet (v : PyVal) (key : String) (dflt : PyVal) : Except PyErr PyVal :=
  match v with
  | .dict kvs => .ok (((kvs.find? (fun kv => kv.1 == key)).map (fun kv => kv.2)).getD dflt)
  | _ => .error .attributeError

/-- `AIClient.chat_response` as seen by a caller: a generator function,
whose call returns a generator object without running the body. -/
def chat_response_call (_message : String) (_context : PyVal) : PyVal :=
  .generator

/-- The dictionary `ChatService.generate_ai_response` returns, restricted to
the fields the claim speaks about. -/
structure AiResponseResult where
  content : String
  message_type : String
deriving Repr

/-- The fixed apology of the `except` branch (services.py:179). -/
def apologyContent : String :=
  "I apologize, but I'm having trouble processing your request right now. Please try again."

/-- `ChatService.generate_ai_response` (services.py:118-189). Inside the
`try`: the context is built (modelled as the `context` argument), the AI
client's `chat_response` is called, and the keyword arguments of
`Message.objects.create` are evaluated left to right — the first being
`content=ai_response_data.get('content', '')`. Any exception lands in the
`except` branch, which stores and returns the fixed error response. -/
def generate_ai_response (user_message_content : String) (context : PyVal) :
    AiResponseResult :=
  match (do
      let ai_response_data := chat_response_call user_message_content context
      let content ← pyDictGet ai_response_data "content" (.str "")
      let model ← pyDictGet ai_response_data "model" (.str "unknown")
      let _ := model
      pure content : Except PyErr PyVal) with
  | .ok c =>
    { content := match c with | .str s => s | _ => ""
      message_type := "text" }
  | .error _ =>
    { content := apologyContent
      message_type := "error" }

/-! ## `ChatAnalyticsService.generate_user_insights` (services.py:680-745)

`_analyze_communication_patterns` evaluates `Avg(models.Length('content'))`
(services.py:731). The name `models` is resolved against the module's bound
names; chat/services.py binds only the names below (its imports at lines 3-19,
the module logger, and the classes it defines), so the lookup raises
`NameError`, which the `except` of `generate_user_insights` converts into a
`success: False` result. -/

/-- The names bound at module level in `backend/apps/chat/services.py`:
`import json`, `import logging`, the `from ... import ...` lists of lines
5-19, `logger`, and the four service classes. -/
def chatServicesModuleNames : List String :=
  ["json", "logging", "datetime", "timedelta",
   "Dict", "List", "Optional", "Generator", "Tuple",
   "User", "transaction", "Q", "Avg", "Sum", "Count", "timezone",
   "AIClient", "UserProfile", "MealPlan", "NutritionLog",
   "WorkoutPlan", "Workout",
   "ChatSession", "Message", "ChatContext", "ChatTemplate",
   "ConversationSummary", "ChatAnalytics",
   "logger",
   "ChatService", "ChatContextService", "ChatAnalyticsService",
   "ConversationSummaryService"]

/-- A selection of Python builtins (the final fallback of name resolution);
`models` is not one of them. -/
def pyBuiltins : List String :=
  ["len", "range", "sum", "min", "max", "sorted", "enumerate", "print",
   "str", "int", "float", "bool", "dict", "list", "set", "tuple", "round",
   "any", "all", "isinstance", "getattr", "setattr", "hasattr", "type", "zip"]

/-- Resolve a global name inside chat/services.py: module globals, then
builtins, else `NameError`. -/
def resolveChatServicesName (n : String) : Except PyErr Unit :=
  if chatServicesModuleNames.contains n || pyBuiltins.contains n then .ok ()
  else .error .nameError

/-- The data `_analyze_communication_patterns` computes before the failing
line: the hourly counts loop (a DB aggregate, modelled by the `hourlyCount`
input). -/
def hourlyDistribution (hourlyCount : Nat → Nat) : List (Nat × Nat) :=
  (List.range 24).map (fun h => (h, hourlyCount h))

/-- `ChatAnalyticsService._analyze_communication_patterns`
(services.py:719-745): builds the hourly distribution, then evaluates
`user_messages.aggregate(avg_length=Avg(models.Length('content')))` — whose
first step is resolving the unbound name `models`. The remaining statements
are unreachable; the result type records the pieces the claim mentions. -/
def analyze_communication_patterns (hourlyCount : Nat → Nat) :
    Except PyErr (List (Nat × Nat) × Rat) := do
  let hourly := hourlyDistribution hourlyCount
  let _ ← resolveChatServicesName "models"
  pure (hourly, 0)

/-- The result dictionary of `generate_user_insights`, restricted to the
`success` flag the claim speaks about. -/
structure InsightsResult where
  success : Bool
deriving Repr

/-- `ChatAnalyticsService.generate_user_insights` (services.py:680-717): the
`insights` dict literal evaluates `_analyze_communication_patterns` first;
any exception is caught and turned into `{'success': False, 'error': ...}`. -/
def generate_user_insights (hourlyCount : Nat → Nat) (_period_days : Nat) :
    InsightsResult :=
  match analyze_communication_patterns hourlyCount with
  | .ok _ => { success := true }
  | .error _ => { success := false }

/-! ## `backend/core/nutrition_api.py` — `NutritionAPI._calculate_health_score`

Nutrition totals are a Python dict from nutrient name to a number; modelled as
an ordered association list of rationals, read through `nget` which is
`nutrition.get(key, 0)`. -/

/-- `nutrition.get(key, 0)`: the value stored under `key`, or `0` when the
nutrient is missing. -/
def nget : List (String × Rat) → String → Rat
  | [], _ => 0
  | (k, v) :: rest, key => if key = k then v else nget rest key

/-- `NutritionAPI._calculate_health_score` (nutrition_api.py:623-658),
translated statement by statement: a base score of 50, the four bonus
branches, the three penalty branches, then `max(0, min(100, score))`. -/
def calculate_health_score (nutrition : List (String × Rat)) : Int :=
  let score : Int := 50
  let score := if nget nutrition "fiber" ≥ 25 then score + 15
    else if nget nutrition "fiber" ≥ 15 then score + 10 else score
  let score := if nget nutrition "protein" ≥ 50 then score + 10
    else if nget nutrition "protein" ≥ 30 then score + 5 else score
  let score := if nget nutrition "vitamin_c" ≥ 90 then score + 10 else score
  let score := if nget nutrition "calcium" ≥ 1000 then score + 5 else score
  let score := if nget nutrition "sodium" > 2300 then score - 20
    else if nget nutrition "sodium" > 1500 then score - 10 else score
  let score := if nget nutrition "sugars" > 50 then score - 15
    else if nget nutrition "sugars" > 25 then score - 8 else score
  let score := if nget nutrition "fat" > 78 then score - 10 else score
  max 0 (min 100 score)

/-- The fiber bonus of the claim's formula. -/
def fiberBonus (x : Rat) : Int := if x ≥ 25 then 15 else if x ≥ 15 then 10 else 0

/-- The protein bonus of the claim's formula. -/
def proteinBonus (x : Rat) : Int := if x ≥ 50 then 10 else if x ≥ 30 then 5 else 0

/-- The vitamin-C bonus of the claim's formula. -/
def vitaminCBonus (x : Rat) : Int := if x ≥ 90 then 10 else 0

/-- The calcium bonus of the claim's formula. -/
def calciumBonus (x : Rat) : Int := if x ≥ 1000 then 5 else 0

/-- The sodium penalty of the claim's formula. -/
def sodiumPenalty (x : Rat) : Int := if x > 2300 then 20 else if x > 1500 then 10 else 0

/-- The sugars penalty of the claim's formula. -/
def sugarsPenalty (x : Rat) : Int := if x > 50 then 15 else if x > 25 then 8 else 0

/-- The fat penalty of the claim's formula. -/
def fatPenalty (x : Rat) : Int := if x > 78 then 10 else 0

/-- The health score as the claim words it: 50 plus the threshold bonuses
minus the threshold penalties, clamped to `[0, 100]`. -/
def health_score_claim (nutrition : List (String × Rat)) : Int :=
  max 0 (min 100
    (50 + fiberBonus (nget nutrition "fiber")
        + proteinBonus (nget nutrition "protein")
        + vitaminCBonus (nget nutrition "vitamin_c")
        + calciumBonus (nget nutrition "calcium")
        - sodiumPenalty (nget nutrition "sodium")
        - sugarsPenalty (nget nutrition "sugars")
        - fatPenalty (nget nutrition "fat")))

/-! ## `backend/apps/nutrition/services.py` — `MealPlanningService.generate_grocery_list`

A meal plan's contents, as read by `generate_grocery_list`
(services.py:115-161): for each meal of `meal_plan.meals.all()`, for each
`meal_food` of `meal.foods.all()`, the food name, quantity, unit and
category. -/

structure MealFood where
  food_name : String
  quantity : Rat
  unit : String
  category : Option String
deriving Repr

/-- A meal is its list of `MealFood` rows. -/
abbrev Meal := List MealFood

/-- A value of `grocery_items[food_name]` (services.py:133-139). -/
structure GroceryItem where
  name : String
  quantity : Rat
  unit : String
  category : String
  estimated_cost : Rat
deriving Repr

/-- Python `round(x, 2)` modelled on rationals (rounding half up rather than
half to even; no claim depends on the rounding direction). -/
def round2 (x : Rat) : Rat :=
  (round (x * 100) : Int) / 100

/-- The per-100g cost table of `MealPlanningService._estimate_item_cost`
(services.py:290-321). -/
def costPer100g : List (String × Rat) :=
  [("chicken", 3), ("beef", 5), ("salmon", 8), ("rice", 1/2), ("pasta", 3/4),
   ("bread", 3/2), ("milk", 1), ("eggs", 5/2), ("cheese", 4), ("yogurt", 3/2),
   ("apple", 1), ("banana", 3/5), ("broccoli", 6/5), ("spinach", 2),
   ("olive oil", 3)]

/-- `MealPlanningService._estimate_item_cost`: the first table entry whose
name occurs in the (lowercased) food name sets the rate; default `1.50`. -/
def estimate_item_cost (food_name : String) (quantity : Rat) : Rat :=
  let lower := pyLower food_name
  match costPer100g.find? (fun kv => isSub (pyLower kv.1).toList lower.toList) with
  | some kv => round2 ((quantity / 100) * kv.2)
  | none => round2 ((quantity / 100) * (3/2))

/-- `grocery_items[food_name]['quantity'] += quantity` applied to the entry
named `fname`, leaving other entries alone. -/
def bumpQty (fname : String) (q : Rat) (g : GroceryItem) : GroceryItem :=
  if g.name == fname then { g with quantity := g.quantity + q } else g

/-- The fresh entry created for a food's first occurrence
(services.py:133-139). -/
def freshItem (f : MealFood) : GroceryItem :=
  { name := f.food_name
    quantity := f.quantity
    unit := f.unit
    category := f.category.getD "Other"
    estimated_cost := estimate_item_cost f.food_name f.quantity }

/-- One iteration of the grocery accumulation loop (services.py:126-139): if
the food name is already present, add the quantity to that entry; otherwise
append a new entry (Python dicts keep insertion order). -/
def addFood (acc : List GroceryItem) (f : MealFood) : List GroceryItem :=
  if acc.any (fun g => g.name == f.food_name) then
    acc.map (bumpQty f.food_name f.quantity)
  else
    acc ++ [freshItem f]

/-- The accumulated quantity stored in `items` under food name `n` (the sum of
the `quantity` fields of the entries named `n`). -/
def gqty (items : List GroceryItem) (n : String) : Rat :=
  ((items.filter (fun g => g.name == n)).map (fun g => g.quantity)).sum

/-- The category each grocery entry would be filed under (the loop's
`category` variable). -/
def categoryOf (f : MealFood) : String := f.category.getD "Other"

/-- The names appended to `categories[cat]` (services.py:142-145): first
occurrence order, no duplicates within a category. In Python the appended
values alias the `grocery_items` dicts, so the final `categories` holds the
finished entries for exactly these names. -/
def categoryNames (foods : List MealFood) (cat : String) : List String :=
  ((foods.filter (fun f => categoryOf f == cat)).map (fun f => f.food_name)).eraseDups

/-- `MealPlanningService._generate_shopping_tips` (services.py:323-342),
reading only the category sizes. -/
def shopping_tips (catSize : String → Nat) : List String :=
  (if catSize "Fruits" > 3 then
      ["Buy fruits at varying ripeness levels to last the whole week"] else [])
  ++ (if catSize "Vegetables" > 0 then
      ["Shop for vegetables 2-3 times per week for maximum freshness"] else [])
  ++ (if catSize "Proteins" > 2 then
      ["Consider buying proteins in bulk and freezing portions"] else [])
  ++ ["Check store flyers for weekly specials on your list items",
      "Bring reusable bags and stick to your list to avoid impulse purchases"]

/-- The result of `generate_grocery_list`, with `categories` as the entries
aliased into each category list. -/
structure GroceryListResult where
  items : List GroceryItem
  categories : List (String × List GroceryItem)
  total_items : Nat
  estimated_cost : Rat
  shopping_tips : List String
deriving Repr

/-- `MealPlanningService.generate_grocery_list` (services.py:115-161): fold
the plan's foods through the accumulation loop; `items` is
`list(grocery_items.values())`, `total_items` is `len(grocery_items)`,
`estimated_cost` sums the per-entry estimates. Nothing in the body raises, so
the `except` branch returning `{'error': ...}` is not taken. -/
def generate_grocery_list (meals : List Meal) : GroceryListResult :=
  let foods := meals.flatMap id
  let items := foods.foldl addFood []
  let cats := (foods.map categoryOf).eraseDups
  { items := items
    categories := cats.map (fun c =>
      (c, (categoryNames foods c).filterMap (fun n => items.find? (fun g => g.name == n))))
    total_items := items.length
    estimated_cost := round2 ((items.map (fun g => g.estimated_cost)).sum)
    shopping_tips := shopping_tips (fun c => (categoryNames foods c).length) }

/-! ## Theorems -/

/-- The fiber branch of the source adds `fiberBonus`. -/
theorem fiber_step (x : Rat) (s : Int) :
    (if x ≥ 25 then s + 15 else if x ≥ 15 then s + 10 else s)
      = s + fiberBonus x := by
  unfold fiberBonus; split_ifs <;> omega

/-- The protein branch of the source adds `proteinBonus`. -/
theorem protein_step (x : Rat) (s : Int) :
    (if x ≥ 50 then s + 10 else if x ≥ 30 then s + 5 else s)
      = s + proteinBonus x := by
  unfold proteinBonus; split_ifs <;> omega

/-- The vitamin-C branch of the source adds `vitaminCBonus`. -/
theorem vitaminC_step (x : Rat) (s : Int) :
    (if x ≥ 90 then s + 10 else s) = s + vitaminCBonus x := by
  unfold vitaminCBonus; split_ifs <;> omega

/-- The calcium branch of the source adds `calciumBonus`. -/
theorem calcium_step (x : Rat) (s : Int) :
    (if x ≥ 1000 then s + 5 else s) = s + calciumBonus x := by
  unfold calciumBonus; split_ifs <;> omega

/-- The sodium branch of the source subtracts `sodiumPenalty`. -/
theorem sodium_step (x : Rat) (s : Int) :
    (if x > 2300 then s - 20 else if x > 1500 then s - 10 else s)
      = s - sodiumPenalty x := by
  unfold sodiumPenalty; split_ifs <;> omega

/-- The sugars branch of the source subtracts `sugarsPenalty`. -/
theorem sugars_step (x : Rat) (s : Int) :
    (if x > 50 then s - 15 else if x > 25 then s - 8 else s)
      = s - sugarsPenalty x := by
  unfold sugarsPenalty; split_ifs <;> omega

/-- The fat branch of the source subtracts `fatPenalty`. -/
theorem fat_step (x : Rat) (s : Int) :
    (if x > 78 then s - 10 else s) = s - fatPenalty x := by
  unfold fatPenalty; split_ifs <;> omega

/-- The sequentially-updated score of the source equals the claim's
base-plus-bonuses-minus-penalties formula. -/
theorem health_score_eq_formula (n : List (String × Rat)) :
    calculate_health_score n = health_score_claim n := by
  simp only [calculate_health_score, health_score_claim]
  rw [fat_step, sugars_step, sodium_step, calcium_step, vitaminC_step,
    protein_step, fiber_step]

/-- Claim C5: for every nutrition-totals mapping, `_calculate_health_score`
returns an integer in `[0, 100]` equal to a base of 50 plus the threshold
bonuses (fiber, protein, vitamin C, calcium) minus the threshold penalties
(sodium, sugars, fat), clamped to `[0, 100]`; missing nutrients read as 0. -/
theorem calculate_health_score_spec (n : List (String × Rat)) :
    calculate_health_score n = health_score_claim n
    ∧ 0 ≤ calculate_health_score n ∧ calculate_health_score n ≤ 100 := by
  refine ⟨health_score_eq_formula n, ?_, ?_⟩
  · rw [health_score_eq_formula]
    exact le_max_left 0 _
  · rw [health_score_eq_formula]
    exact max_le (by norm_num) (min_le_left _ _)

/-- The sodium penalty never decreases as sodium grows. -/
theorem sodiumPenalty_mono {x y : Rat} (h : x ≤ y) :
    sodiumPenalty x ≤ sodiumPenalty y := by
  unfold sodiumPenalty
  split_ifs <;> linarith

/-- The sugars penalty never decreases as sugars grow. -/
theorem sugarsPenalty_mono {x y : Rat} (h : x ≤ y) :
    sugarsPenalty x ≤ sugarsPenalty y := by
  unfold sugarsPenalty
  split_ifs <;> linarith

/-- Claim C6: the health score is anti-monotone in sodium and in sugars: if
two nutrition mappings agree on every nutrient except `key` (which is sodium
or sugars) and the first has the smaller `key` value, the second's score is at
most the first's. -/
theorem health_score_antimono (n1 n2 : List (String × Rat)) (key : String)
    (hkey : key = "sodium" ∨ key = "sugars")
    (hagree : ∀ k, k ≠ key → nget n1 k = nget n2 k)
    (hle : nget n1 key ≤ nget n2 key) :
    calculate_health_score n2 ≤ calculate_health_score n1 := by
  rw [health_score_eq_formula, health_score_eq_formula]
  unfold health_score_claim
  rcases hkey with hkey | hkey <;> subst hkey
  · rw [← hagree "fiber" (by decide), ← hagree "protein" (by decide),
      ← hagree "vitamin_c" (by decide), ← hagree "calcium" (by decide),
      ← hagree "sugars" (by decide), ← hagree "fat" (by decide)]
    have hpen := sodiumPenalty_mono hle
    exact max_le_max le_rfl (min_le_min le_rfl (by linarith))
  · rw [← hagree "fiber" (by decide), ← hagree "protein" (by decide),
      ← hagree "vitamin_c" (by decide), ← hagree "calcium" (by decide),
      ← hagree "sodium" (by decide), ← hagree "fat" (by decide)]
    have hpen := sugarsPenalty_mono hle
    exact max_le_max le_rfl (min_le_min le_rfl (by linarith))

/-- Witness for C6: raising sodium from 1000 to 3000 (all other nutrients
absent) cannot raise the score. -/
theorem health_score_antimono_witness :
    calculate_health_score [("sodium", (3000 : Rat))]
      ≤ calculate_health_score [("sodium", (1000 : Rat))] :=
  health_score_antimono [("sodium", (1000 : Rat))] [("sodium", (3000 : Rat))]
    "sodium" (Or.inl rfl)
    (fun k hk => by simp [nget, hk])
    (by norm_num [nget])

/-- Claim C7: `get_relevant_context` keeps exactly the context items whose
importance score is at least 0.7 and which are not expired: an item whose
`expires_at` is set and strictly earlier than now is dropped, one with no
`expires_at` is always eligible. -/
theorem get_relevant_context_exact (now : Rat) (items : List ContextItem)
    (it : ContextItem) :
    it ∈ get_relevant_context now items ↔
      it ∈ items ∧ (7 : Rat)/10 ≤ it.importance_score ∧
        it.is_expired now = false := by
  unfold get_relevant_context ContextItem.is_expired
  simp only [List.mem_filter, decide_eq_true_eq, and_assoc]
  cases h : it.expires_at <;> simp [h, gt_iff_lt]

/-- Claim C8: `ChatService.generate_ai_response` always lands in its
exception branch — `AIClient.chat_response` is a generator function, so the
`.get('content', ...)` call on its return value raises `AttributeError` — and
returns the fixed apology with message type `error`. -/
theorem generate_ai_response_always_error (msg : String) (ctx : PyVal) :
    generate_ai_response msg ctx
      = { content := apologyContent, message_type := "error" } := rfl

/-- Claim C9: `ChatAnalyticsService.generate_user_insights` always reports
failure: `_analyze_communication_patterns` evaluates the unbound name
`models`, raising `NameError`, which the wrapper converts into
`success: False`. -/
theorem generate_user_insights_never_succeeds (hourlyCount : Nat → Nat)
    (period_days : Nat) :
    (generate_user_insights hourlyCount period_days).success = false := rfl

/-- Counterexample for C3: when the AI call fails, `generate_workout_plan`
returns the fallback plan, whose `Plank` exercise has no `reps` field — so not
every exercise entry of a returned plan contains both `sets` and `reps`. -/
theorem generate_workout_plan_reps_counterexample :
    allExercisesHave "reps"
      (generate_workout_plan (Json.obj []) (.error .apiError)) = false := rfl

/-- Claim C3 as amended: on any failure of the AI call the returned plan is
the fixed fallback plan; every exercise entry of that plan has `name` and
`sets` fields, but not every entry has a `reps` field (the `Plank` entry
carries `duration` instead). -/
theorem generate_workout_plan_fallback_exercises (profile : Json) (e : PyErr) :
    generate_workout_plan profile (.error e) = fallback_workout_plan profile
    ∧ allExercisesHave "name" (fallback_workout_plan profile) = true
    ∧ allExercisesHave "sets" (fallback_workout_plan profile) = true
    ∧ allExercisesHave "reps" (fallback_workout_plan profile) = false :=
  ⟨rfl, rfl, rfl, rfl⟩

/-- The index-based extraction loop of the source collects exactly the words
that immediately follow a trigger token. -/
theorem collectFollowing_eq_followersOf (keys : List String) (words : List String) :
    collectFollowing keys words = followersOf keys words := by
  induction words with
  | nil => rfl
  | cons w ws ih =>
    show List.filterMap
        (fun i =>
          if (keys.contains ((w :: ws).getD i "")) ∧ i + 1 < (w :: ws).length then
            some ((w :: ws).getD (i + 1) "")
          else none)
        (List.range (ws.length + 1)) = followersOf keys (w :: ws)
    rw [List.range_succ_eq_map, List.filterMap_cons, List.filterMap_map]
    have hshift :
        ((fun i =>
            if (keys.contains ((w :: ws).getD i "")) ∧ i + 1 < (w :: ws).length then
              some ((w :: ws).getD (i + 1) "")
            else none) ∘ (· + 1))
          = (fun i =>
            if (keys.contains (ws.getD i "")) ∧ i + 1 < ws.length then
              some (ws.getD (i + 1) "")
            else none) := by
      funext i
      simp only [Function.comp_apply, List.getD_cons_succ, List.length_cons,
        Nat.add_lt_add_iff_right]
    rw [hshift]
    rw [show List.filterMap
        (fun i =>
          if (keys.contains (ws.getD i "")) ∧ i + 1 < ws.length then
            some (ws.getD (i + 1) "")
          else none)
        (List.range ws.length) = collectFollowing keys ws from rfl]
    rw [ih]
    cases ws with
    | nil =>
      simp [followersOf]
    | cons v vs =>
      by_cases hw : w ∈ keys
      · simp [followersOf, hw, List.filter_cons]
      · simp [followersOf, hw, List.filter_cons]

/-- Claim C4: the food-preference extraction of
`_extract_preferences_from_message` records as likes exactly the words
immediately following a whitespace-separated token `love`/`like`/`enjoy` of
the lowercased content, scanned iff the content contains the substring `love`
or `like`; and as dislikes exactly the words following `hate`/`dislike`/
`avoid`, scanned iff the content contains `hate` or `dislike`. -/
theorem extract_food_preferences_spec (content : String) :
    extract_food_preferences content = extract_food_preferences_claim content := by
  unfold extract_food_preferences extract_food_preferences_claim
  simp only [collectFollowing_eq_followersOf]

/-- `upToLastClose` cuts a list after the last closing brace. -/
theorem upToLastClose_eq (l : List Char) :
    upToLastClose l
      = (lastIdx (fun c => c = '\x7d') l).map (fun j => l.take (j + 1)) := by
  induction l with
  | nil => rfl
  | cons c rest ih =>
    cases hr : lastIdx (fun c => c = '\x7d') rest with
    | some j =>
      simp [upToLastClose, lastIdx, ih, hr, List.take_succ_cons]
    | none =>
      by_cases hc : c = '\x7d' <;>
        simp [upToLastClose, lastIdx, ih, hr, hc]

/-- If a list has no closing brace, the brace regex finds no match in it. -/
theorem reSearchBrace_eq_none (l : List Char)
    (h : lastIdx (fun c => c = '\x7d') l = none) : reSearchBrace l = none := by
  induction l with
  | nil => rfl
  | cons c rest ih =>
    have hr : lastIdx (fun c => c = '\x7d') rest = none := by
      cases hr : lastIdx (fun c => c = '\x7d') rest with
      | some j => simp [lastIdx, hr] at h
      | none => rfl
    have hc : ¬ (c = '\x7d') := by
      simp [lastIdx, hr] at h
      intro hcc
      simp [hcc] at h
    by_cases hb : c = '\x7b' <;>
      simp [reSearchBrace, tryBraceAt, hb, upToLastClose_eq, hr, ih hr]

/-- The scanning regex search for `\{.*\}` returns exactly the slice from the
first opening brace to the last closing brace (when the first `\x7b` precedes
the last `\x7d`), as the claim words it. -/
theorem reSearchBrace_eq_firstToLastBrace (l : List Char) :
    reSearchBrace l = firstToLastBrace l := by
  induction l with
  | nil => rfl
  | cons c rest ih =>
    by_cases hb : c = '\x7b'
    · subst hb
      cases hr : lastIdx (fun c => c = '\x7d') rest with
      | some j =>
        simp [reSearchBrace, tryBraceAt, firstToLastBrace, firstIdx, lastIdx,
          upToLastClose_eq, hr, List.take_succ_cons]
      | none =>
        have hnone := reSearchBrace_eq_none rest hr
        simp [reSearchBrace, tryBraceAt, firstToLastBrace, firstIdx, lastIdx,
          upToLastClose_eq, hr, hnone]
    · have hstep : firstToLastBrace (c :: rest) = firstToLastBrace rest := by
        unfold firstToLastBrace
        cases hr : lastIdx (fun c => c = '\x7d') rest with
        | some j =>
          cases hf : firstIdx (fun c => c = '\x7b') rest with
          | some i =>
            simp only [firstIdx, lastIdx, hb, hr, hf, if_false, Option.map_some',
              List.drop_succ_cons, Nat.succ_sub_succ]
            by_cases hij : i < j <;> simp [hij, Nat.succ_lt_succ_iff]
          | none =>
            simp [firstIdx, lastIdx, hb, hr, hf]
        | none =>
          by_cases hc : c = '\x7d'
          · cases hf : firstIdx (fun c => c = '\x7b') rest with
            | some i => simp [firstToLastBrace, firstIdx, lastIdx, hb, hc, hr, hf]
            | none => simp [firstToLastBrace, firstIdx, lastIdx, hb, hc, hr, hf]
          · simp [firstToLastBrace, firstIdx, lastIdx, hb, hc, hr]
      rw [← hstep] at ih
      simpa [reSearchBrace, tryBraceAt, hb] using ih

/-- Claim C1: `_parse_json_response` behaves exactly as described — parse the
whole string if it is valid JSON; otherwise parse the contents of the first
```` ```json ```` fenced block if present; otherwise parse the substring from
the first `\x7b` to the last `\x7d` if present; otherwise raise `ValueError` —
with the fallbacks attempted exactly when direct parsing fails, in that
order. -/
theorem parse_json_response_matches_claim (response : String) :
    parse_json_response response = parse_json_response_claim response := by
  unfold parse_json_response parse_json_response_claim
  rw [reSearchBrace_eq_firstToLastBrace]

/-- A plan that passes `_validate_meal_plan` is either not a dict at all or a
dict containing both required keys. -/
theorem isMealDict_of_validate (r : Json)
    (hv : validate_meal_plan r = Except.ok true) :
    jIsDict r = false ∨ isMealDict r = true := by
  cases r with
  | obj kvs =>
    right
    simp only [validate_meal_plan, pyContains, bind, Except.bind] at hv
    by_cases h1 : kvs.any (fun kv => kv.1 == "daily_calories") = true
    · rw [if_pos h1] at hv
      simp only [Except.ok.injEq] at hv
      simp [isMealDict, jIsDict, jHasKey, h1, hv]
    · rw [if_neg h1] at hv
      simp [pure, Except.pure] at hv
  | null => exact Or.inl rfl
  | bool b => exact Or.inl rfl
  | num x => exact Or.inl rfl
  | str s => exact Or.inl rfl
  | arr xs => exact Or.inl rfl

/-- Counterexample for C2: the AI response `["daily_calories", "days"]` parses
to a JSON array; Python's `in` then finds both key strings as elements, the
validation passes, and `generate_meal_plan` returns the array — not a
dictionary containing the keys. -/
theorem generate_meal_plan_nondict_counterexample :
    generate_meal_plan (Json.obj []) (.ok "[\"daily_calories\", \"days\"]")
        = Json.arr [.str "daily_calories", .str "days"]
    ∧ jIsDict (generate_meal_plan (Json.obj [])
        (.ok "[\"daily_calories\", \"days\"]")) = false :=
  ⟨rfl, rfl⟩

/-- Claim C2 as amended: `generate_meal_plan` never raises; it returns either
the fixed fallback plan (which is a dict with both `daily_calories` and
`days`) or an AI plan passing the Python membership check for both keys; in
particular every dict it returns contains both keys, but the result can be a
non-dict when the parsed plan is a string or list containing them. -/
theorem generate_meal_plan_spec (profile : Json) (api : Except PyErr String) :
    (generate_meal_plan profile api = fallback_meal_plan profile
      ∨ validate_meal_plan (generate_meal_plan profile api) = Except.ok true)
    ∧ isMealDict (fallback_meal_plan profile) = true
    ∧ (jIsDict (generate_meal_plan profile api) = false
        ∨ isMealDict (generate_meal_plan profile api) = true) := by
  have hmain : generate_meal_plan profile api = fallback_meal_plan profile
      ∨ validate_meal_plan (generate_meal_plan profile api) = Except.ok true := by
    unfold generate_meal_plan
    cases api with
    | error e => exact Or.inl rfl
    | ok s =>
      cases hr : parse_json_response s with
      | error e => simp [bind, Except.bind, hr]
      | ok plan =>
        cases hv : validate_meal_plan plan with
        | error e => simp [bind, Except.bind, hr, hv]
        | ok b =>
          cases b with
          | false => simp [bind, Except.bind, pure, Except.pure, hr, hv]
          | true =>
            right
            simp [bind, Except.bind, pure, Except.pure, hr, hv]
  refine ⟨hmain, rfl, ?_⟩
  rcases hmain with h | h
  · rw [h]; exact Or.inr rfl
  · exact isMealDict_of_validate _ h

/-! ### Lemmas about the grocery accumulation loop -/

/-- `addFood` keeps the stored names unchanged when the food is already
present, and appends its name otherwise. -/
theorem names_addFood (acc : List GroceryItem) (f : MealFood) :
    (addFood acc f).map (fun g => g.name)
      = if f.food_name ∈ acc.map (fun g => g.name) then
          acc.map (fun g => g.name)
        else acc.map (fun g => g.name) ++ [f.food_name] := by
  unfold addFood
  by_cases h : acc.any (fun g => g.name == f.food_name) = true
  · have hmem : f.food_name ∈ acc.map (fun g => g.name) := by
      simp only [List.any_eq_true, beq_iff_eq] at h
      obtain ⟨g, hg, he⟩ := h
      exact List.mem_map.mpr ⟨g, hg, he⟩
    rw [if_pos h, if_pos hmem, List.map_map]
    have hcomp : ((fun g : GroceryItem => g.name) ∘ bumpQty f.food_name f.quantity)
        = (fun g : GroceryItem => g.name) := by
      funext g
      by_cases hb : (g.name == f.food_name) = true <;> simp [bumpQty, hb]
    rw [hcomp]
  · have hmem : f.food_name ∉ acc.map (fun g => g.name) := by
      simp only [List.any_eq_true, beq_iff_eq] at h
      intro hc
      rcases List.mem_map.mp hc with ⟨g, hg, he⟩
      exact h ⟨g, hg, he⟩
    rw [if_neg h, if_neg hmem, List.map_append]
    rfl

/-- Accumulated quantities split over list concatenation. -/
theorem gqty_append (l1 l2 : List GroceryItem) (n : String) :
    gqty (l1 ++ l2) n = gqty l1 n + gqty l2 n := by
  unfold gqty
  rw [List.filter_append, List.map_append, List.sum_append]

/-- Accumulated quantity of a cons cell. -/
theorem gqty_cons (g : GroceryItem) (l : List GroceryItem) (n : String) :
    gqty (g :: l) n = (if g.name == n then g.quantity else 0) + gqty l n := by
  unfold gqty
  rw [List.filter_cons]
  by_cases h : (g.name == n) = true <;> simp [h]

/-- Bumping a name that is stored nowhere changes nothing. -/
theorem map_bumpQty_eq_self (fname : String) (q : Rat) (l : List GroceryItem)
    (h : fname ∉ l.map (fun g => g.name)) :
    l.map (bumpQty fname q) = l := by
  induction l with
  | nil => rfl
  | cons g rest ih =>
    have hg : g.name ≠ fname := by
      intro he
      exact h (List.mem_map.mpr ⟨g, List.mem_cons_self g rest, he⟩)
    have hrest : fname ∉ rest.map (fun g => g.name) := by
      intro hc
      rcases List.mem_map.mp hc with ⟨x, hx, he⟩
      exact h (List.mem_map.mpr ⟨x, List.mem_cons_of_mem g hx, he⟩)
    rw [List.map_cons, ih hrest]
    have : bumpQty fname q g = g := by
      unfold bumpQty
      rw [if_neg (by simpa using hg)]
    rw [this]

/-- Effect of the quantity bump on the accumulated quantity, given that the
stored names are distinct. -/
theorem gqty_map_bumpQty (l : List GroceryItem) (fname : String) (q : Rat)
    (n : String) (hnodup : (l.map (fun g => g.name)).Nodup) :
    gqty (l.map (bumpQty fname q)) n
      = gqty l n
        + (if fname ∈ l.map (fun g => g.name) then
            (if fname == n then q else 0) else 0) := by
  induction l with
  | nil => simp [gqty]
  | cons g rest ih =>
    rw [List.map_cons, List.nodup_cons] at hnodup
    by_cases hg : g.name = fname
    · have hrest_not : fname ∉ rest.map (fun g => g.name) := hg ▸ hnodup.1
      rw [List.map_cons, map_bumpQty_eq_self _ _ _ hrest_not, gqty_cons, gqty_cons]
      have hbump : bumpQty fname q g = { g with quantity := g.quantity + q } := by
        unfold bumpQty
        rw [if_pos (by simpa using hg)]
      rw [hbump,
        if_pos (show fname ∈ (g :: rest).map (fun g => g.name) by
          simp [List.mem_map]
          exact Or.inl hg.symm)]
      rw [← hg]
      by_cases hn : (g.name == n) = true <;> simp [hn] <;> ring
    · have hmem_iff : (fname ∈ (g :: rest).map (fun g => g.name))
          ↔ fname ∈ rest.map (fun g => g.name) := by
        simp only [List.map_cons, List.mem_cons]
        constructor
        · rintro (he | h)
          · exact absurd he.symm hg
          · exact h
        · exact Or.inr
      have hbump : bumpQty fname q g = g := by
        unfold bumpQty
        rw [if_neg (by simpa using hg)]
      rw [List.map_cons, hbump, gqty_cons, gqty_cons, ih hnodup.2]
      by_cases hr : fname ∈ rest.map (fun g => g.name)
      · rw [if_pos hr, if_pos (hmem_iff.mpr hr)]
        ring
      · rw [if_neg hr, if_neg (fun hc => hr (hmem_iff.mp hc))]
        ring

/-- One loop iteration adds the food's quantity to its name's total and
leaves all other totals unchanged. -/
theorem gqty_addFood (acc : List GroceryItem) (f : MealFood) (n : String)
    (hnodup : (acc.map (fun g => g.name)).Nodup) :
    gqty (addFood acc f) n
      = gqty acc n + (if f.food_name == n then f.quantity else 0) := by
  unfold addFood
  by_cases h : acc.any (fun g => g.name == f.food_name) = true
  · have hmem : f.food_name ∈ acc.map (fun g => g.name) := by
      simp only [List.any_eq_true, beq_iff_eq] at h
      obtain ⟨g, hg, he⟩ := h
      exact List.mem_map.mpr ⟨g, hg, he⟩
    rw [if_pos h, gqty_map_bumpQty _ _ _ _ hnodup, if_pos hmem]
  · rw [if_neg h, gqty_append]
    have : gqty [freshItem f] n = if f.food_name == n then f.quantity else 0 := by
      rw [show freshItem f :: ([] : List GroceryItem) = [freshItem f] from rfl] at *
      rw [gqty_cons]
      simp [gqty, freshItem]
    rw [this]

/-- The loop never stores the same name twice. -/
theorem names_nodup_addFood (acc : List GroceryItem) (f : MealFood)
    (h : (acc.map (fun g => g.name)).Nodup) :
    ((addFood acc f).map (fun g => g.name)).Nodup := by
  rw [names_addFood]
  split_ifs with hm
  · exact h
  · refine List.Nodup.append h (List.nodup_singleton _) ?_
    intro a ha hax
    rw [List.mem_singleton] at hax
    exact hm (hax ▸ ha)

/-- A name is stored after one iteration iff it was stored before or is the
processed food's name. -/
theorem names_mem_addFood (acc : List GroceryItem) (f : MealFood) (n : String) :
    n ∈ (addFood acc f).map (fun g => g.name)
      ↔ n ∈ acc.map (fun g => g.name) ∨ n = f.food_name := by
  rw [names_addFood]
  split_ifs with hm
  · constructor
    · exact Or.inl
    · rintro (h | rfl)
      · exact h
      · exact hm
  · simp [List.mem_append]

/-- The stored names stay distinct through the whole fold. -/
theorem foldl_addFood_names_nodup (foods : List MealFood)
    (acc : List GroceryItem) (h : (acc.map (fun g => g.name)).Nodup) :
    ((foods.foldl addFood acc).map (fun g => g.name)).Nodup := by
  induction foods generalizing acc with
  | nil => exact h
  | cons f fs ih => exact ih _ (names_nodup_addFood _ _ h)

/-- A name is stored after the fold iff it was stored initially or occurs
among the processed foods. -/
theorem foldl_addFood_names_mem (foods : List MealFood)
    (acc : List GroceryItem) (n : String) :
    n ∈ ((foods.foldl addFood acc).map (fun g => g.name))
      ↔ n ∈ acc.map (fun g => g.name) ∨ n ∈ foods.map (fun f => f.food_name) := by
  induction foods generalizing acc with
  | nil => simp
  | cons f fs ih =>
    rw [List.foldl_cons, ih, names_mem_addFood]
    simp only [List.map_cons, List.mem_cons]
    tauto

/-- The fold accumulates, for every name, exactly the sum of the quantities
of the processed foods carrying that name. -/
theorem foldl_addFood_gqty (foods : List MealFood) (acc : List GroceryItem)
    (n : String) (h : (acc.map (fun g => g.name)).Nodup) :
    gqty (foods.foldl addFood acc) n
      = gqty acc n
        + ((foods.filter (fun f => f.food_name == n)).map (fun f => f.quantity)).sum := by
  induction foods generalizing acc with
  | nil => simp
  | cons f fs ih =>
    rw [List.foldl_cons, ih _ (names_nodup_addFood _ _ h), gqty_addFood _ _ _ h,
      List.filter_cons]
    by_cases hf : (f.food_name == n) = true <;> simp [hf] <;> ring

/-- In a list of entries with distinct names, filtering by a stored name
yields exactly one entry, and it carries that name. -/
theorem filter_name_singleton (items : List GroceryItem) (n : String)
    (hnodup : (items.map (fun g => g.name)).Nodup)
    (hmem : n ∈ items.map (fun g => g.name)) :
    ∃ g, items.filter (fun g => g.name == n) = [g] ∧ g.name = n := by
  induction items with
  | nil => simp at hmem
  | cons g rest ih =>
    rw [List.map_cons, List.nodup_cons] at hnodup
    rw [List.map_cons, List.mem_cons] at hmem
    by_cases hg : (g.name == n) = true
    · have hgn : g.name = n := by simpa using hg
      have hnil : rest.filter (fun g => g.name == n) = [] := by
        rw [List.filter_eq_nil_iff]
        intro x hx hxn
        have hxname : x.name = n := by simpa using hxn
        exact hnodup.1 (List.mem_map.mpr ⟨x, hx, hxname.trans hgn.symm⟩)
      refine ⟨g, ?_, hgn⟩
      rw [List.filter_cons, if_pos hg, hnil]
    · have hn : n ∈ rest.map (fun g => g.name) := by
        rcases hmem with he | h
        · exact absurd (by simp [he]) hg
        · exact h
      rcases ih hnodup.2 hn with ⟨g0, hf, hg0⟩
      refine ⟨g0, ?_, hg0⟩
      rw [List.filter_cons, if_neg hg, hf]

/-- Claim C10: in the result of `generate_grocery_list`, `total_items` is the
number of distinct food names of the plan, and every food name occurring in
the plan appears on exactly one item, whose quantity is the sum of that
food's quantities over all its occurrences. -/
theorem generate_grocery_list_spec (meals : List Meal) (n : String) :
    (generate_grocery_list meals).total_items
        = (((meals.flatMap id).map (fun f => f.food_name)).toFinset).card
    ∧ (n ∈ (meals.flatMap id).map (fun f => f.food_name) →
        ((generate_grocery_list meals).items.filter
            (fun g => g.name == n)).length = 1
        ∧ ((generate_grocery_list meals).items.filter
              (fun g => g.name == n)).map (fun g => g.quantity)
            = [((((meals.flatMap id).filter
                  (fun f => f.food_name == n)).map (fun f => f.quantity)).sum)]) := by
  have hitems : (generate_grocery_list meals).items
      = (meals.flatMap id).foldl addFood [] := rfl
  have htotal : (generate_grocery_list meals).total_items
      = ((meals.flatMap id).foldl addFood []).length := rfl
  have hnodup : (((meals.flatMap id).foldl addFood []).map
      (fun g => g.name)).Nodup :=
    foldl_addFood_names_nodup _ [] (by simp)
  constructor
  · rw [htotal]
    have h2 : ((meals.flatMap id).foldl addFood []).length
        = (((meals.flatMap id).foldl addFood []).map (fun g => g.name)).length :=
      (List.length_map _ _).symm
    have h3 : (((meals.flatMap id).foldl addFood []).map
          (fun g => g.name)).toFinset.card
        = (((meals.flatMap id).foldl addFood []).map (fun g => g.name)).length :=
      List.toFinset_card_of_nodup hnodup
    have h4 : (((meals.flatMap id).foldl addFood []).map
          (fun g => g.name)).toFinset
        = ((meals.flatMap id).map (fun f => f.food_name)).toFinset := by
      ext x
      simp only [List.mem_toFinset]
      rw [foldl_addFood_names_mem]
      simp
    rw [h2, ← h3, h4]
  · intro hmem
    have hmem' : n ∈ (((meals.flatMap id).foldl addFood []).map
        (fun g => g.name)) := by
      rw [foldl_addFood_names_mem]
      exact Or.inr hmem
    rcases filter_name_singleton _ _ hnodup hmem' with ⟨g, hf, hgn⟩
    have hq : gqty ((meals.flatMap id).foldl addFood []) n
        = (((meals.flatMap id).filter
            (fun f => f.food_name == n)).map (fun f => f.quantity)).sum := by
      rw [foldl_addFood_gqty _ _ _ (by simp)]
      simp [gqty]
    have hgq : g.quantity
        = (((meals.flatMap id).filter
            (fun f => f.food_name == n)).map (fun f => f.quantity)).sum := by
      rw [← hq]
      unfold gqty
      rw [hf]
      simp
    constructor
    · rw [hitems, hf]
      rfl
    · rw [hitems, hf, List.map_singleton, hgq]

/-- Witness for C10: a plan with `rice` twice (100 g and 50 g) and `milk`
once yields exactly one `rice` item, carrying the summed quantity. -/
theorem generate_grocery_list_spec_witness :
    ((generate_grocery_list
        ([[MealFood.mk "rice" 100 "g" (some "Grains")],
          [MealFood.mk "rice" 50 "g" (some "Grains"),
           MealFood.mk "milk" 200 "ml" none]] : List (List MealFood))).items.filter
        (fun g => g.name == "rice")).length = 1
    ∧ ((generate_grocery_list
        ([[MealFood.mk "rice" 100 "g" (some "Grains")],
          [MealFood.mk "rice" 50 "g" (some "Grains"),
           MealFood.mk "milk" 200 "ml" none]] : List (List MealFood))).items.filter
          (fun g => g.name == "rice")).map (fun g => g.quantity)
        = [(((([[MealFood.mk "rice" 100 "g" (some "Grains")],
              [MealFood.mk "rice" 50 "g" (some "Grains"),
               MealFood.mk "milk" 200 "ml" none]] : List (List MealFood)).flatMap
                id).filter
              (fun f => f.food_name == "rice")).map (fun f => f.quantity)).sum] :=
  (generate_grocery_list_spec
    ([[MealFood.mk "rice" 100 "g" (some "Grains")],
      [MealFood.mk "rice" 50 "g" (some "Grains"),
       MealFood.mk "milk" 200 "ml" none]] : List (List MealFood)) "rice").2
    (by decide)

end Wellness
